import Mathlib

set_option linter.unusedVariables false

/-!
Shallow embedding of `src/Load_Balancer.cpp` (a request-routing load balancer)
and proofs about it.

Modelling conventions:
* C++ `int` fields are embedded as `Int` (loads stay between 0 and the
  threshold on every reachable path, so no wrap-around arithmetic is needed).
* `Destination*` pointers are embedded as natural-number identities
  (`DestId`); the program's `std::set<Destination*>` is a set of pointers
  ordered by address, embedded as a strictly sorted `List DestId`, whose
  list order is the set's enumeration order.
* The mutable heap of `Destination` objects, the `serviceMap` of the
  `LoadBalancer` base class and the `destinationQueues` of
  `RoundRobinLoadBalancer` are gathered in one explicit state record
  `LBState`; every member function that can mutate state returns the new
  state explicitly.
* C++ exceptions (`runtime_error`) become `Except LBError`; the two distinct
  error messages of the source become the two constructors of `LBError`.
* `std::hash<string>` is implementation-defined, so the hash-routed balancer
  is parameterised by the hash function `stdHash : String → Nat`; theorems
  quantify over it.
* `cout` status lines are I/O only and are omitted.
-/

/-- Embeds class `Request`: an id, a routing key, and opaque parameters. -/
structure Request where
  id : String
  requestType : String
  parameters : List (String × String)
deriving DecidableEq

/-- Embeds class `Destination`: an endpoint with a load counter
(`requestsBeingServed`, default-initialised to 0 by the constructor) and a
capacity `threshold`. -/
structure Destination where
  ipAddress : String
  requestsBeingServed : Int
  threshold : Int
deriving DecidableEq

/-- Embeds the constructor `Destination(string ip, int thresh)`: stores both
arguments unchecked and leaves `requestsBeingServed` at its initial value 0. -/
def Destination.make (ip : String) (thresh : Int) : Destination :=
  { ipAddress := ip, requestsBeingServed := 0, threshold := thresh }

/-- Embeds `Destination::acceptRequest`: if `requestsBeingServed < threshold`
the load is incremented and `true` is returned, otherwise `false` with no
state change.  The request argument is not inspected.  The function is total:
overload is signalled only by the boolean, never by an exception. -/
def Destination.acceptRequest (d : Destination) (request : Request) :
    Bool × Destination :=
  if d.requestsBeingServed < d.threshold then
    (true, { d with requestsBeingServed := d.requestsBeingServed + 1 })
  else
    (false, d)

/-- Embeds `Destination::completeRequest`: decrements the load if it is
positive, otherwise does nothing.  Total, never raises. -/
def Destination.completeRequest (d : Destination) : Destination :=
  if d.requestsBeingServed > 0 then
    { d with requestsBeingServed := d.requestsBeingServed - 1 }
  else
    d

/-- A caller-side operation on a single `Destination`: either an accept
attempt (`Destination::acceptRequest`) or a completion
(`Destination::completeRequest`). -/
inductive DestOp where
  | accept (request : Request)
  | release
deriving DecidableEq

/-- Runs a sequence of accept/complete calls against one `Destination`. -/
def Destination.applyOps (d : Destination) : List DestOp → Destination
  | [] => d
  | DestOp.accept r :: ops => ((d.acceptRequest r).2).applyOps ops
  | DestOp.release :: ops => (d.completeRequest).applyOps ops

/-- Pointer identity of a `Destination` object (models a `Destination*`). -/
abbrev DestId := Nat

/-- Ordered insertion without duplication: models `std::set::insert` on
pointers ordered by address. -/
def insertSorted (x : DestId) : List DestId → List DestId
  | [] => [x]
  | y :: t =>
    if x < y then x :: y :: t
    else if x = y then y :: t
    else y :: insertSorted x t

/-- Removal of one element: models `std::set::erase`. -/
def eraseSorted (x : DestId) : List DestId → List DestId
  | [] => []
  | y :: t => if x = y then t else y :: eraseSorted x t

/-- Embeds class `Service`: a name and a `std::set<Destination*>` whose
enumeration order is the list order. -/
structure Service where
  name : String
  destinations : List DestId
deriving DecidableEq

/-- Embeds `Service::addDestination` (`destinations.insert(destination)`). -/
def Service.addDestination (s : Service) (d : DestId) : Service :=
  { s with destinations := insertSorted d s.destinations }

/-- Embeds `Service::removeDestination` (`destinations.erase(destination)`). -/
def Service.removeDestination (s : Service) (d : DestId) : Service :=
  { s with destinations := eraseSorted d s.destinations }

/-- A caller-side mutation of a `Service`'s candidate set: an insertion
(`Service::addDestination`) or a removal (`Service::removeDestination`). -/
inductive SetOp where
  | add (d : DestId)
  | remove (d : DestId)
deriving DecidableEq

/-- Runs a sequence of insertions/removals against one `Service`. -/
def Service.applySetOps (s : Service) : List SetOp → Service
  | [] => s
  | SetOp.add d :: ops => (s.addDestination d).applySetOps ops
  | SetOp.remove d :: ops => (s.removeDestination d).applySetOps ops

/-- The two `runtime_error`s of the source, as named error kinds. -/
inductive LBError where
  /-- models `runtime_error("No service found for the request type.")` -/
  | unknownRequestType
  /-- models `runtime_error("No destinations available.")` -/
  | noCandidates
deriving DecidableEq

/-- Map assignment `m[k] = v` on an association list: replaces the binding of
`k` if present, otherwise appends it. -/
def setEntry {α : Type} (k : String) (v : α) :
    List (String × α) → List (String × α)
  | [] => [(k, v)]
  | (k', v') :: t => if k = k' then (k, v) :: t else (k', v') :: setEntry k v t

/-- The explicit program state: the heap of `Destination` objects indexed by
pointer identity, the `serviceMap` of the `LoadBalancer` base class, and the
`destinationQueues` private to `RoundRobinLoadBalancer`. -/
structure LBState where
  dests : DestId → Destination
  serviceMap : List (String × Service)
  destinationQueues : List (String × List DestId)

/-- Dereferences a pointer and reads its `requestsBeingServed` counter. -/
def LBState.loadOf (st : LBState) (d : DestId) : Int :=
  (st.dests d).requestsBeingServed

/-- Embeds `LoadBalancer::registerService`
(`serviceMap[requestType] = service`). -/
def LoadBalancer.registerService (st : LBState) (requestType : String)
    (service : Service) : LBState :=
  { st with serviceMap := setEntry requestType service st.serviceMap }

/-- Embeds `LoadBalancer::getDestinations`: throws `unknownRequestType` when
`serviceMap` has no binding for the request's type, otherwise returns the
bound service's destination set.  Mutates nothing. -/
def LoadBalancer.getDestinations (st : LBState) (request : Request) :
    Except LBError (List DestId) :=
  match st.serviceMap.lookup request.requestType with
  | none => Except.error LBError.unknownRequestType
  | some s => Except.ok s.destinations

/-- Embeds `std::min_element` specialised to the comparator
`a->requestsBeingServed < b->requestsBeingServed`: scans the tail keeping the
current best, replacing it only on a strictly smaller key, so the first
minimum wins. -/
def minElem (f : DestId → Int) (d : DestId) : List DestId → DestId
  | [] => d
  | x :: t => if f x < f d then minElem f x t else minElem f d t

/-- Embeds `LeastConnectionLoadBalancer::balanceLoad`: resolves the candidate
set, throws `noCandidates` if it is empty, otherwise returns the
`min_element` by current load.  The state is returned unchanged. -/
def LeastConnectionLoadBalancer.balanceLoad (st : LBState) (request : Request) :
    Except LBError DestId × LBState :=
  match LoadBalancer.getDestinations st request with
  | Except.error e => (Except.error e, st)
  | Except.ok ds =>
    match ds with
    | [] => (Except.error LBError.noCandidates, st)
    | d :: t => (Except.ok (minElem st.loadOf d t), st)

/-- Embeds `RoutedLoadBalancer::balanceLoad`: resolves the candidate set,
throws `noCandidates` if empty, otherwise copies the set into a vector (its
enumeration order) and returns the element at index
`hash(request.id) % size`.  Parameterised by the implementation-defined
`std::hash<string>`.  The state is returned unchanged. -/
def RoutedLoadBalancer.balanceLoad (stdHash : String → Nat) (st : LBState)
    (request : Request) : Except LBError DestId × LBState :=
  match LoadBalancer.getDestinations st request with
  | Except.error e => (Except.error e, st)
  | Except.ok ds =>
    match ds with
    | [] => (Except.error LBError.noCandidates, st)
    | d :: t =>
      (Except.ok ((d :: t).getD (stdHash request.id % (d :: t).length) d), st)

/-- Embeds `RoundRobinLoadBalancer::balanceLoad`: resolves the candidate set,
throws `noCandidates` if empty; on first use for this request type,
materialises the candidate set (in enumeration order) as the queue; then
returns the queue's front and rotates it to the back.  The final catch-all
arm is unreachable from any state this API can build (a materialised queue is
never empty, mirroring the fact that `front()` on an empty `std::queue` can
never be reached in the source); it leaves the state untouched. -/
def RoundRobinLoadBalancer.balanceLoad (st : LBState) (request : Request) :
    Except LBError DestId × LBState :=
  match LoadBalancer.getDestinations st request with
  | Except.error e => (Except.error e, st)
  | Except.ok ds =>
    match ds with
    | [] => (Except.error LBError.noCandidates, st)
    | _ :: _ =>
      let qs :=
        match st.destinationQueues.lookup request.requestType with
        | none => setEntry request.requestType ds st.destinationQueues
        | some _ => st.destinationQueues
      match qs.lookup request.requestType with
      | some (d :: q) =>
        (Except.ok d,
         { st with destinationQueues := setEntry request.requestType (q ++ [d]) qs })
      | _ => (Except.error LBError.noCandidates, st)

/-- Runs `n` successive `RoundRobinLoadBalancer::balanceLoad` calls for the
same request, threading the state. -/
def RoundRobinLoadBalancer.iterate (request : Request) :
    Nat → LBState → LBState
  | 0, st => st
  | n + 1, st =>
    RoundRobinLoadBalancer.iterate request n
      (RoundRobinLoadBalancer.balanceLoad st request).2

/-- The destination chosen by the `(n+1)`-st of a run of successive
round-robin calls for the same request. -/
def RoundRobinLoadBalancer.nthChoice (st : LBState) (request : Request)
    (n : Nat) : Except LBError DestId :=
  (RoundRobinLoadBalancer.balanceLoad
    (RoundRobinLoadBalancer.iterate request n st) request).1

/-- Fixture: destination object 0 for concrete evaluations. -/
def wDest0 : Destination :=
  { ipAddress := "192.168.0.1", requestsBeingServed := 2, threshold := 12 }

/-- Fixture: destination object 1 for concrete evaluations. -/
def wDest1 : Destination :=
  { ipAddress := "192.168.0.2", requestsBeingServed := 1, threshold := 20 }

/-- Fixture: a concrete heap with two live destinations. -/
def wDests : DestId → Destination := fun i =>
  if i = 0 then wDest0 else if i = 1 then wDest1 else Destination.make "0.0.0.0" 1

/-- Fixture: a service over destinations 0 and 1. -/
def wService : Service := { name := "video", destinations := [0, 1] }

/-- Fixture: a concrete request of type "http". -/
def wReq : Request := { id := "REQ1", requestType := "http", parameters := [] }

/-- Fixture: a second request with the same id as `wReq`. -/
def wReq2 : Request :=
  { id := "REQ1", requestType := "http", parameters := [("Format", "MP4")] }

/-- Fixture: a state binding "http" to `wService`, no queue materialised. -/
def wState : LBState :=
  { dests := wDests, serviceMap := [("http", wService)], destinationQueues := [] }

/-- Fixture: a heap whose two destinations are both exactly at capacity. -/
def wFullDests : DestId → Destination := fun i =>
  if i = 0 then { ipAddress := "a", requestsBeingServed := 1, threshold := 1 }
  else { ipAddress := "b", requestsBeingServed := 1, threshold := 1 }

/-- Fixture: a state whose two candidates are both at capacity. -/
def wFullState : LBState :=
  { dests := wFullDests, serviceMap := [("http", wService)],
    destinationQueues := [] }

/-- Fixture: a state with a materialised round-robin queue for "http". -/
def wRRState : LBState :=
  { dests := wDests, serviceMap := [("http", wService)],
    destinationQueues := [("http", [0, 1])] }

/-- Fixture: a state with no service registered at all. -/
def wEmptyState : LBState :=
  { dests := wDests, serviceMap := [], destinationQueues := [] }

/-! ### Helper lemmas about a single `Destination` -/

theorem acceptRequest_threshold (d : Destination) (r : Request) :
    ((d.acceptRequest r).2).threshold = d.threshold := by
  by_cases h : d.requestsBeingServed < d.threshold <;>
    simp [Destination.acceptRequest, h]

theorem completeRequest_threshold (d : Destination) :
    (d.completeRequest).threshold = d.threshold := by
  by_cases h : d.requestsBeingServed > 0 <;>
    simp [Destination.completeRequest, h]

theorem applyOps_threshold :
    ∀ (ops : List DestOp) (d : Destination),
      (d.applyOps ops).threshold = d.threshold
  | [], d => rfl
  | DestOp.accept r :: ops, d => by
    rw [Destination.applyOps, applyOps_threshold ops, acceptRequest_threshold]
  | DestOp.release :: ops, d => by
    rw [Destination.applyOps, applyOps_threshold ops, completeRequest_threshold]

theorem applyOps_load_bounds :
    ∀ (ops : List DestOp) (d : Destination),
      0 ≤ d.requestsBeingServed → d.requestsBeingServed ≤ d.threshold →
      0 ≤ (d.applyOps ops).requestsBeingServed ∧
        (d.applyOps ops).requestsBeingServed ≤ d.threshold
  | [], d, h0, h1 => ⟨h0, h1⟩
  | DestOp.accept r :: ops, d, h0, h1 => by
    rw [Destination.applyOps]
    by_cases h : d.requestsBeingServed < d.threshold
    · have := applyOps_load_bounds ops ((d.acceptRequest r).2)
        (by simp [Destination.acceptRequest, h]; omega)
        (by simp [Destination.acceptRequest, h]; omega)
      rwa [acceptRequest_threshold] at this
    · have := applyOps_load_bounds ops ((d.acceptRequest r).2)
        (by simp [Destination.acceptRequest, h]; omega)
        (by simp [Destination.acceptRequest, h]; omega)
      rwa [acceptRequest_threshold] at this
  | DestOp.release :: ops, d, h0, h1 => by
    rw [Destination.applyOps]
    have := applyOps_load_bounds ops (d.completeRequest)
      (by by_cases h : d.requestsBeingServed > 0 <;>
            simp [Destination.completeRequest, h] <;> omega)
      (by by_cases h : d.requestsBeingServed > 0 <;>
            simp [Destination.completeRequest, h] <;> omega)
    rwa [completeRequest_threshold] at this

theorem applyOps_of_nonpos (d : Destination) (ht : d.threshold ≤ 0)
    (h0 : d.requestsBeingServed = 0) :
    ∀ ops : List DestOp, d.applyOps ops = d
  | [] => rfl
  | DestOp.accept r :: ops => by
    have hacc : (d.acceptRequest r).2 = d := by
      have : ¬ d.requestsBeingServed < d.threshold := by omega
      simp [Destination.acceptRequest, this]
    rw [Destination.applyOps, hacc, applyOps_of_nonpos d ht h0 ops]
  | DestOp.release :: ops => by
    have hrel : d.completeRequest = d := by
      have : ¬ d.requestsBeingServed > 0 := by omega
      simp [Destination.completeRequest, this]
    rw [Destination.applyOps, hrel, applyOps_of_nonpos d ht h0 ops]

/-! ### Claims about `Destination` admission and completion -/

/-- **C1**: `acceptRequest` returns `true` and increments the load by exactly
one when `load < threshold`, and otherwise returns `false` leaving the state
unchanged; it is a total function, so overload is signalled only by the
boolean, never by an error. -/
theorem acceptRequest_spec (d : Destination) (request : Request) :
    ((d.acceptRequest request).1 = true ↔
      d.requestsBeingServed < d.threshold) ∧
    (d.acceptRequest request).2.requestsBeingServed =
      d.requestsBeingServed +
        (if (d.acceptRequest request).1 = true then 1 else 0) ∧
    (d.acceptRequest request).2.ipAddress = d.ipAddress ∧
    (d.acceptRequest request).2.threshold = d.threshold := by
  by_cases h : d.requestsBeingServed < d.threshold <;>
    simp [Destination.acceptRequest, h]

/-- **C3**: `completeRequest` decrements the load by one when it is positive,
is the identity when the load is zero (hence idempotent against
double-release), changes no other field, and is total (never raises). -/
theorem completeRequest_spec (d : Destination) :
    (0 < d.requestsBeingServed →
      (d.completeRequest).requestsBeingServed = d.requestsBeingServed - 1) ∧
    (d.requestsBeingServed = 0 → d.completeRequest = d) ∧
    (d.requestsBeingServed = 0 → (d.completeRequest).completeRequest = d) ∧
    (d.completeRequest).ipAddress = d.ipAddress ∧
    (d.completeRequest).threshold = d.threshold := by
  refine ⟨fun h => ?_, fun h0 => ?_, fun h0 => ?_, ?_, ?_⟩
  · simp [Destination.completeRequest, h]
  · simp [Destination.completeRequest, h0]
  · simp [Destination.completeRequest, h0]
  · by_cases h : d.requestsBeingServed > 0 <;>
      simp [Destination.completeRequest, h]
  · exact completeRequest_threshold d

/-- Witness for `completeRequest_spec` at two concrete destinations: one with
positive load (decrement) and one with zero load (no-op). -/
theorem completeRequest_spec_witness :
    (wDest0.completeRequest).requestsBeingServed =
      wDest0.requestsBeingServed - 1 ∧
    (Destination.make "x" 5).completeRequest = Destination.make "x" 5 :=
  ⟨(completeRequest_spec wDest0).1 (by decide),
   (completeRequest_spec (Destination.make "x" 5)).2.1 (by decide)⟩

/-- **C2**: starting from a fresh destination with positive capacity, every
sequence of accept/release calls keeps `0 ≤ load ≤ capacity`; and with
capacity 1, two successive accepts yield `true` then `false`. -/
theorem load_invariant (ip : String) (cap : Int) (hcap : 0 < cap)
    (ops : List DestOp) (r1 r2 : Request) :
    (0 ≤ ((Destination.make ip cap).applyOps ops).requestsBeingServed ∧
      ((Destination.make ip cap).applyOps ops).requestsBeingServed ≤ cap) ∧
    ((Destination.make ip 1).acceptRequest r1).1 = true ∧
    (((Destination.make ip 1).acceptRequest r1).2.acceptRequest r2).1 =
      false := by
  refine ⟨?_, ?_, ?_⟩
  · exact applyOps_load_bounds ops (Destination.make ip cap)
      (by simp [Destination.make]) (by simp [Destination.make]; exact hcap.le)
  · norm_num [Destination.make, Destination.acceptRequest]
  · norm_num [Destination.make, Destination.acceptRequest]

/-- Witness for `load_invariant`: capacity 1, a concrete accept/release
trace, and two concrete requests. -/
theorem load_invariant_witness :
    (0 ≤ ((Destination.make "a" 1).applyOps
        [DestOp.accept wReq, DestOp.release]).requestsBeingServed ∧
      ((Destination.make "a" 1).applyOps
        [DestOp.accept wReq, DestOp.release]).requestsBeingServed ≤ 1) ∧
    ((Destination.make "a" 1).acceptRequest wReq).1 = true ∧
    (((Destination.make "a" 1).acceptRequest wReq).2.acceptRequest wReq2).1 =
      false :=
  load_invariant "a" 1 (by decide) [DestOp.accept wReq, DestOp.release]
    wReq wReq2

/-- **C10**: the constructor accepts a non-positive threshold unchecked
(storing it as given, with load 0), and such a destination rejects every
request, its load staying 0 under any sequence of operations. -/
theorem nonpositive_threshold_rejects (ip : String) (thresh : Int)
    (hthresh : thresh ≤ 0) (request : Request) (ops : List DestOp) :
    (Destination.make ip thresh).threshold = thresh ∧
    (Destination.make ip thresh).requestsBeingServed = 0 ∧
    (Destination.make ip thresh).acceptRequest request =
      (false, Destination.make ip thresh) ∧
    ((Destination.make ip thresh).applyOps ops).requestsBeingServed = 0 := by
  refine ⟨rfl, rfl, ?_, ?_⟩
  · have h : ¬ (Destination.make ip thresh).requestsBeingServed <
        (Destination.make ip thresh).threshold := by
      simp [Destination.make]; omega
    simp [Destination.acceptRequest, h]
  · rw [applyOps_of_nonpos (Destination.make ip thresh) hthresh rfl ops]
    rfl

/-- Witness for `nonpositive_threshold_rejects` at threshold `-1` with a
concrete request and operation trace. -/
theorem nonpositive_threshold_rejects_witness :
    (Destination.make "a" (-1)).threshold = -1 ∧
    (Destination.make "a" (-1)).requestsBeingServed = 0 ∧
    (Destination.make "a" (-1)).acceptRequest wReq =
      (false, Destination.make "a" (-1)) ∧
    ((Destination.make "a" (-1)).applyOps
      [DestOp.accept wReq, DestOp.release]).requestsBeingServed = 0 :=
  nonpositive_threshold_rejects "a" (-1) (by decide) wReq
    [DestOp.accept wReq, DestOp.release]

/-! ### Helper lemmas about `minElem` (`std::min_element`) -/

theorem minElem_mem (f : DestId → Int) :
    ∀ (t : List DestId) (d : DestId), minElem f d t ∈ d :: t
  | [], d => by simp [minElem]
  | x :: t, d => by
    by_cases h : f x < f d
    · have hm := minElem_mem f t x
      simp only [minElem, if_pos h]
      simp only [List.mem_cons] at hm ⊢
      tauto
    · have hm := minElem_mem f t d
      simp only [minElem, if_neg h]
      simp only [List.mem_cons] at hm ⊢
      tauto

theorem minElem_le (f : DestId → Int) :
    ∀ (t : List DestId) (d : DestId),
      ∀ x ∈ d :: t, f (minElem f d t) ≤ f x
  | [], d => by
    intro x hx
    rcases List.mem_cons.mp hx with rfl | hx
    · simp [minElem]
    · simp at hx
  | x :: t, d => by
    intro y hy
    by_cases h : f x < f d
    · simp only [minElem, if_pos h]
      rcases List.mem_cons.mp hy with rfl | hy'
      · exact le_of_lt (lt_of_le_of_lt
          (minElem_le f t x x (List.mem_cons_self x t)) h)
      · exact minElem_le f t x y hy'
    · simp only [minElem, if_neg h]
      rcases List.mem_cons.mp hy with rfl | hy'
      · exact minElem_le f t y y (List.mem_cons_self y t)
      rcases List.mem_cons.mp hy' with rfl | hy''
      · exact le_trans (minElem_le f t d d (List.mem_cons_self d t))
          (not_lt.mp h)
      · exact minElem_le f t d y (List.mem_cons_of_mem d hy'')

theorem minElem_first (f : DestId → Int) :
    ∀ (t : List DestId) (d : DestId),
      ∃ l r, d :: t = l ++ minElem f d t :: r ∧
        ∀ x ∈ l, f (minElem f d t) < f x
  | [], d => ⟨[], [], rfl, by simp⟩
  | x :: t, d => by
    by_cases h : f x < f d
    · obtain ⟨l, r, heq, hl⟩ := minElem_first f t x
      have hle : f (minElem f x t) ≤ f x :=
        minElem_le f t x x (List.mem_cons_self x t)
      simp only [minElem, if_pos h]
      generalize hm : minElem f x t = m at heq hl hle
      refine ⟨d :: l, r, ?_, ?_⟩
      · rw [List.cons_append, ← heq]
      · intro y hy
        rcases List.mem_cons.mp hy with rfl | hy'
        · exact lt_of_le_of_lt hle h
        · exact hl y hy'
    · obtain ⟨l, r, heq, hl⟩ := minElem_first f t d
      simp only [minElem, if_neg h]
      generalize hm : minElem f d t = m at heq hl
      cases l with
      | nil =>
        obtain ⟨hd, ht⟩ := List.cons_eq_cons.mp heq
        exact ⟨[], x :: t, by rw [← hd]; simp, by simp⟩
      | cons a l' =>
        rw [List.cons_append] at heq
        obtain ⟨hd, ht⟩ := List.cons_eq_cons.mp heq
        have hmd : f m < f d := by
          have := hl a (List.mem_cons_self a l')
          rwa [← hd] at this
        refine ⟨d :: x :: l', r, ?_, ?_⟩
        · rw [ht]; simp
        · intro y hy
          rcases List.mem_cons.mp hy with rfl | hy'
          · exact hmd
          rcases List.mem_cons.mp hy' with rfl | hy''
          · exact lt_of_lt_of_le hmd (not_lt.mp h)
          · exact hl y (List.mem_cons_of_mem a hy'')

/-- **C4**: on a non-empty candidate set, the least-connection balancer
returns a candidate whose load is less than or equal to every candidate's
load, and every candidate listed before it (in the set's enumeration order)
has strictly greater load — i.e. it is the first of the equally loaded
minima. -/
theorem leastConnection_min (st : LBState) (request : Request) (s : Service)
    (hs : st.serviceMap.lookup request.requestType = some s)
    (hne : s.destinations ≠ []) :
    ∃ dmin,
      (LeastConnectionLoadBalancer.balanceLoad st request).1 =
        Except.ok dmin ∧
      dmin ∈ s.destinations ∧
      (∀ x ∈ s.destinations, st.loadOf dmin ≤ st.loadOf x) ∧
      ∃ l r, s.destinations = l ++ dmin :: r ∧
        ∀ x ∈ l, st.loadOf dmin < st.loadOf x := by
  obtain ⟨d, t, hdt⟩ : ∃ d t, s.destinations = d :: t := by
    cases hds : s.destinations with
    | nil => exact absurd hds hne
    | cons d t => exact ⟨d, t, rfl⟩
  refine ⟨minElem st.loadOf d t, ?_, ?_, ?_, ?_⟩
  · simp [LeastConnectionLoadBalancer.balanceLoad,
      LoadBalancer.getDestinations, hs, hdt]
  · rw [hdt]; exact minElem_mem st.loadOf t d
  · rw [hdt]; exact minElem_le st.loadOf t d
  · rw [hdt]; exact minElem_first st.loadOf t d

/-- Witness for `leastConnection_min` at a concrete two-candidate state
(loads 2 and 1). -/
theorem leastConnection_min_witness :
    ∃ dmin,
      (LeastConnectionLoadBalancer.balanceLoad wState wReq).1 =
        Except.ok dmin ∧
      dmin ∈ wService.destinations ∧
      (∀ x ∈ wService.destinations, wState.loadOf dmin ≤ wState.loadOf x) ∧
      ∃ l r, wService.destinations = l ++ dmin :: r ∧
        ∀ x ∈ l, wState.loadOf dmin < wState.loadOf x :=
  leastConnection_min wState wReq wService (by decide) (by decide)

/-! ### Helper lemmas about the association-list maps and stateless policies -/

theorem lookup_setEntry_self {α : Type} (k : String) (v : α) :
    ∀ m : List (String × α), (setEntry k v m).lookup k = some v
  | [] => by simp [setEntry, List.lookup]
  | (k', v') :: t => by
    by_cases h : k = k'
    · simp [setEntry, h, List.lookup]
    · have hb : (k == k') = false := by simp [h]
      simp [setEntry, h, List.lookup, hb, lookup_setEntry_self k v t]

theorem leastConnection_state_unchanged (st : LBState) (request : Request) :
    (LeastConnectionLoadBalancer.balanceLoad st request).2 = st := by
  cases hlk : st.serviceMap.lookup request.requestType with
  | none =>
    simp [LeastConnectionLoadBalancer.balanceLoad,
      LoadBalancer.getDestinations, hlk]
  | some s =>
    cases hds : s.destinations with
    | nil =>
      simp [LeastConnectionLoadBalancer.balanceLoad,
        LoadBalancer.getDestinations, hlk, hds]
    | cons d t =>
      simp [LeastConnectionLoadBalancer.balanceLoad,
        LoadBalancer.getDestinations, hlk, hds]

theorem routed_state_unchanged (stdHash : String → Nat) (st : LBState)
    (request : Request) :
    (RoutedLoadBalancer.balanceLoad stdHash st request).2 = st := by
  cases hlk : st.serviceMap.lookup request.requestType with
  | none =>
    simp [RoutedLoadBalancer.balanceLoad, LoadBalancer.getDestinations, hlk]
  | some s =>
    cases hds : s.destinations with
    | nil =>
      simp [RoutedLoadBalancer.balanceLoad,
        LoadBalancer.getDestinations, hlk, hds]
    | cons d t =>
      simp [RoutedLoadBalancer.balanceLoad,
        LoadBalancer.getDestinations, hlk, hds]

theorem routed_eval (stdHash : String → Nat) (st : LBState) (req : Request)
    (s : Service) (hs : st.serviceMap.lookup req.requestType = some s)
    (d : DestId) (t : List DestId) (hdt : s.destinations = d :: t) :
    RoutedLoadBalancer.balanceLoad stdHash st req =
      (Except.ok ((d :: t).getD (stdHash req.id % (d :: t).length) d), st) := by
  simp [RoutedLoadBalancer.balanceLoad, LoadBalancer.getDestinations, hs, hdt]

/-- **C5**: the hash-routed balancer is deterministic — against an unchanged
candidate set, two requests with the same id (whatever the hash function
used for `std::hash<string>`) are sent to the same destination, namely the
candidate at index `hash(id) % count` of the set's enumeration order. -/
theorem routed_deterministic (stdHash : String → Nat) (st : LBState)
    (req1 req2 : Request) (s : Service)
    (hid : req1.id = req2.id) (htype : req1.requestType = req2.requestType)
    (hs : st.serviceMap.lookup req1.requestType = some s)
    (hne : s.destinations ≠ []) :
    (RoutedLoadBalancer.balanceLoad stdHash st req1).1 =
      (RoutedLoadBalancer.balanceLoad stdHash st req2).1 ∧
    (RoutedLoadBalancer.balanceLoad stdHash st req1).1 =
      Except.ok (s.destinations.getD
        (stdHash req1.id % s.destinations.length) 0) := by
  obtain ⟨d, t, hdt⟩ : ∃ d t, s.destinations = d :: t := by
    cases hds : s.destinations with
    | nil => exact absurd hds hne
    | cons d t => exact ⟨d, t, rfl⟩
  have hs2 : st.serviceMap.lookup req2.requestType = some s := by
    rw [← htype]; exact hs
  have h1 := routed_eval stdHash st req1 s hs d t hdt
  have h2 := routed_eval stdHash st req2 s hs2 d t hdt
  constructor
  · rw [h1, h2, hid]
  · rw [h1, hdt]
    have hlt : stdHash req1.id % (d :: t).length < (d :: t).length :=
      Nat.mod_lt _ (by simp)
    rw [List.getD_eq_getElem _ _ hlt, List.getD_eq_getElem _ _ hlt]

/-- Witness for `routed_deterministic`: a concrete hash function, two
requests sharing the id "REQ1", and the two-candidate fixture state. -/
theorem routed_deterministic_witness :
    (RoutedLoadBalancer.balanceLoad (fun str => str.length) wState wReq).1 =
      (RoutedLoadBalancer.balanceLoad (fun str => str.length) wState wReq2).1 ∧
    (RoutedLoadBalancer.balanceLoad (fun str => str.length) wState wReq).1 =
      Except.ok (wService.destinations.getD
        (wReq.id.length % wService.destinations.length) 0) :=
  routed_deterministic (fun str => str.length) wState wReq wReq2 wService
    rfl rfl (by decide) (by decide)

/-- **C8**: resolution fails with `unknownRequestType` exactly when no
service is bound to the request's type, with `noCandidates` exactly when the
bound service's candidate set is empty, and succeeds with some destination
whenever the set is non-empty — irrespective of the candidates' loads and
capacities (being at capacity raises no error). -/
theorem route_errors (st : LBState) (request : Request) :
    ((LeastConnectionLoadBalancer.balanceLoad st request).1 =
        Except.error LBError.unknownRequestType ↔
      st.serviceMap.lookup request.requestType = none) ∧
    ((LeastConnectionLoadBalancer.balanceLoad st request).1 =
        Except.error LBError.noCandidates ↔
      ∃ s, st.serviceMap.lookup request.requestType = some s ∧
        s.destinations = []) ∧
    (∀ s, st.serviceMap.lookup request.requestType = some s →
      s.destinations ≠ [] →
      ∃ d, (LeastConnectionLoadBalancer.balanceLoad st request).1 =
        Except.ok d) := by
  cases hlk : st.serviceMap.lookup request.requestType with
  | none =>
    refine ⟨?_, ?_, ?_⟩ <;>
      simp [LeastConnectionLoadBalancer.balanceLoad,
        LoadBalancer.getDestinations, hlk]
  | some s =>
    cases hds : s.destinations with
    | nil =>
      refine ⟨?_, ?_, ?_⟩ <;>
        simp [LeastConnectionLoadBalancer.balanceLoad,
          LoadBalancer.getDestinations, hlk, hds]
    | cons d t =>
      refine ⟨?_, ?_, ?_⟩ <;>
        simp [LeastConnectionLoadBalancer.balanceLoad,
          LoadBalancer.getDestinations, hlk, hds]

/-- Witness for `route_errors`: at a state whose two candidates are both
exactly at capacity, routing still succeeds with some destination. -/
theorem route_errors_witness :
    wFullState.serviceMap.lookup wReq.requestType = some wService ∧
    wService.destinations ≠ [] ∧
    ∃ d, (LeastConnectionLoadBalancer.balanceLoad wFullState wReq).1 =
      Except.ok d :=
  ⟨by decide, by decide,
   (route_errors wFullState wReq).2.2 wService (by decide) (by decide)⟩

theorem roundRobin_error_state (st : LBState) (request : Request)
    (e : LBError)
    (h : (RoundRobinLoadBalancer.balanceLoad st request).1 = Except.error e) :
    (RoundRobinLoadBalancer.balanceLoad st request).2 = st := by
  cases hlk : st.serviceMap.lookup request.requestType with
  | none =>
    simp [RoundRobinLoadBalancer.balanceLoad,
      LoadBalancer.getDestinations, hlk]
  | some s =>
    cases hds : s.destinations with
    | nil =>
      simp [RoundRobinLoadBalancer.balanceLoad,
        LoadBalancer.getDestinations, hlk, hds]
    | cons d t =>
      cases hq : st.destinationQueues.lookup request.requestType with
      | none =>
        exfalso
        have hmat :
            (setEntry request.requestType (d :: t)
              st.destinationQueues).lookup request.requestType =
              some (d :: t) :=
          lookup_setEntry_self request.requestType (d :: t)
            st.destinationQueues
        simp [RoundRobinLoadBalancer.balanceLoad,
          LoadBalancer.getDestinations, hlk, hds, hq, hmat] at h
      | some q =>
        cases q with
        | nil =>
          simp [RoundRobinLoadBalancer.balanceLoad,
            LoadBalancer.getDestinations, hlk, hds, hq]
        | cons d0 q0 =>
          exfalso
          simp [RoundRobinLoadBalancer.balanceLoad,
            LoadBalancer.getDestinations, hlk, hds, hq] at h

/-- **C9**: every failing `balanceLoad` call — for each of the three policy
variants — leaves the entire state (destination loads, service map, and the
round-robin queues) unchanged. -/
theorem route_atomic_on_failure (stdHash : String → Nat) (st : LBState)
    (request : Request) :
    (∀ e, (LeastConnectionLoadBalancer.balanceLoad st request).1 =
        Except.error e →
      (LeastConnectionLoadBalancer.balanceLoad st request).2 = st) ∧
    (∀ e, (RoutedLoadBalancer.balanceLoad stdHash st request).1 =
        Except.error e →
      (RoutedLoadBalancer.balanceLoad stdHash st request).2 = st) ∧
    (∀ e, (RoundRobinLoadBalancer.balanceLoad st request).1 =
        Except.error e →
      (RoundRobinLoadBalancer.balanceLoad st request).2 = st) :=
  ⟨fun _ _ => leastConnection_state_unchanged st request,
   fun _ _ => routed_state_unchanged stdHash st request,
   fun e he => roundRobin_error_state st request e he⟩

/-- Witness for `route_atomic_on_failure`: at a state with no registered
service every policy fails with `unknownRequestType` and returns the state
unchanged. -/
theorem route_atomic_on_failure_witness :
    (LeastConnectionLoadBalancer.balanceLoad wEmptyState wReq).2 =
      wEmptyState ∧
    (RoutedLoadBalancer.balanceLoad (fun _ => 0) wEmptyState wReq).2 =
      wEmptyState ∧
    (RoundRobinLoadBalancer.balanceLoad wEmptyState wReq).2 = wEmptyState :=
  ⟨(route_atomic_on_failure (fun _ => 0) wEmptyState wReq).1
      LBError.unknownRequestType rfl,
   (route_atomic_on_failure (fun _ => 0) wEmptyState wReq).2.1
      LBError.unknownRequestType rfl,
   (route_atomic_on_failure (fun _ => 0) wEmptyState wReq).2.2
      LBError.unknownRequestType rfl⟩

/-! ### Helper lemmas about the round-robin rotation -/

theorem insertSorted_ne_nil (x : DestId) (l : List DestId) :
    insertSorted x l ≠ [] := by
  cases l with
  | nil => simp [insertSorted]
  | cons y t =>
    simp only [insertSorted]
    split
    · simp
    · split <;> simp

theorem get_eq_of_some {α : Type} {l : List α} {n : Nat} {a : α}
    (h : n < l.length) (hg : l.get? n = some a) : l.get ⟨n, h⟩ = a := by
  rw [List.get?_eq_get h] at hg
  exact Option.some.inj hg

theorem roundRobin_step (st : LBState) (req : Request) (s : Service)
    (hs : st.serviceMap.lookup req.requestType = some s)
    (hne : s.destinations ≠ []) (d : DestId) (q : List DestId)
    (hq : st.destinationQueues.lookup req.requestType = some (d :: q)) :
    RoundRobinLoadBalancer.balanceLoad st req =
      (Except.ok d,
       { st with destinationQueues :=
           setEntry req.requestType (q ++ [d]) st.destinationQueues }) := by
  obtain ⟨d0, t0, hdt⟩ : ∃ d0 t0, s.destinations = d0 :: t0 := by
    cases hds : s.destinations with
    | nil => exact absurd hds hne
    | cons d0 t0 => exact ⟨d0, t0, rfl⟩
  simp [RoundRobinLoadBalancer.balanceLoad, LoadBalancer.getDestinations,
    hs, hdt, hq]

theorem roundRobin_step_fresh (st : LBState) (req : Request) (s : Service)
    (hs : st.serviceMap.lookup req.requestType = some s)
    (d : DestId) (t : List DestId) (hdt : s.destinations = d :: t)
    (hfresh : st.destinationQueues.lookup req.requestType = none) :
    RoundRobinLoadBalancer.balanceLoad st req =
      (Except.ok d,
       { st with destinationQueues :=
           (setEntry req.requestType (t ++ [d])
             (setEntry req.requestType (d :: t) st.destinationQueues)) }) := by
  have hmat : (setEntry req.requestType (d :: t)
      st.destinationQueues).lookup req.requestType = some (d :: t) :=
    lookup_setEntry_self req.requestType (d :: t) st.destinationQueues
  simp [RoundRobinLoadBalancer.balanceLoad, LoadBalancer.getDestinations,
    hs, hdt, hfresh, hmat]

theorem roundRobin_iterate_spec (req : Request) (s : Service)
    (hne : s.destinations ≠ []) :
    ∀ (k : Nat) (st : LBState) (q : List DestId), q ≠ [] →
      st.serviceMap.lookup req.requestType = some s →
      st.destinationQueues.lookup req.requestType = some q →
      (RoundRobinLoadBalancer.iterate req k st).serviceMap = st.serviceMap ∧
      (RoundRobinLoadBalancer.iterate req k st).dests = st.dests ∧
      (RoundRobinLoadBalancer.iterate req k st).destinationQueues.lookup
        req.requestType = some (q.rotate k)
  | 0, st, q, hqne, hs, hq => ⟨rfl, rfl, by simpa [List.rotate_zero] using hq⟩
  | k + 1, st, q, hqne, hs, hq => by
    obtain ⟨d, t, rfl⟩ : ∃ d t, q = d :: t := by
      cases q with
      | nil => exact absurd rfl hqne
      | cons d t => exact ⟨d, t, rfl⟩
    have hstep := roundRobin_step st req s hs hne d t hq
    have hit : RoundRobinLoadBalancer.iterate req (k + 1) st =
        RoundRobinLoadBalancer.iterate req k
          { st with destinationQueues :=
              setEntry req.requestType (t ++ [d]) st.destinationQueues } := by
      rw [RoundRobinLoadBalancer.iterate, hstep]
    have hq' : (setEntry req.requestType (t ++ [d])
        st.destinationQueues).lookup req.requestType = some (t ++ [d]) :=
      lookup_setEntry_self req.requestType (t ++ [d]) st.destinationQueues
    have ih := roundRobin_iterate_spec req s hne k
      { st with destinationQueues :=
          setEntry req.requestType (t ++ [d]) st.destinationQueues }
      (t ++ [d]) (by simp) hs hq'
    refine ⟨?_, ?_, ?_⟩
    · rw [hit]; exact ih.1
    · rw [hit]; exact ih.2.1
    · rw [hit, List.rotate_cons_succ]; exact ih.2.2

theorem roundRobin_nth (st : LBState) (req : Request) (s : Service)
    (hs : st.serviceMap.lookup req.requestType = some s)
    (hne : s.destinations ≠ []) (q : List DestId)
    (hq : st.destinationQueues.lookup req.requestType = some q)
    (hqne : q ≠ []) (k : Nat) :
    RoundRobinLoadBalancer.nthChoice st req k =
      Except.ok (q.get ⟨k % q.length,
        Nat.mod_lt _ (List.length_pos.mpr hqne)⟩) := by
  obtain ⟨hsm, hds, hqk⟩ := roundRobin_iterate_spec req s hne k st q hqne hs hq
  have hqpos : 0 < q.length := List.length_pos.mpr hqne
  have hrotne : q.rotate k ≠ [] := by
    simpa [List.rotate_eq_nil_iff] using hqne
  obtain ⟨d, t, hdt⟩ : ∃ d t, q.rotate k = d :: t := by
    cases hr : q.rotate k with
    | nil => exact absurd hr hrotne
    | cons d t => exact ⟨d, t, rfl⟩
  have hs' : (RoundRobinLoadBalancer.iterate req k st).serviceMap.lookup
      req.requestType = some s := by rw [hsm]; exact hs
  have hq' : (RoundRobinLoadBalancer.iterate req k st).destinationQueues.lookup
      req.requestType = some (d :: t) := by rw [hqk, hdt]
  have hstep := roundRobin_step (RoundRobinLoadBalancer.iterate req k st)
    req s hs' hne d t hq'
  have hget : q.get ⟨k % q.length, Nat.mod_lt _ hqpos⟩ = d := by
    apply get_eq_of_some
    have h1 : (q.rotate k).get? 0 = some d := by rw [hdt]; rfl
    have h2 : (q.rotate k).get? 0 = q.get? ((0 + k) % q.length) :=
      List.get?_rotate hqpos
    rw [h2, Nat.zero_add] at h1
    exact h1
  rw [RoundRobinLoadBalancer.nthChoice, hstep]
  exact congrArg Except.ok hget.symm

/-- **C6**: starting from a state where the round-robin queue for the
request's type is not yet materialised, the `(k+1)`-st of a run of successive
round-robin calls returns the candidate at index `k mod n` of the sequence
materialised from the candidate set (in its enumeration order) — i.e. the
calls cycle `A, B, C, A, B, C, …`, advancing and wrapping the per-type
cursor. -/
theorem roundRobin_cycles (st : LBState) (req : Request) (s : Service)
    (hs : st.serviceMap.lookup req.requestType = some s)
    (hne : s.destinations ≠ [])
    (hfresh : st.destinationQueues.lookup req.requestType = none) (k : Nat) :
    RoundRobinLoadBalancer.nthChoice st req k =
      Except.ok (s.destinations.get ⟨k % s.destinations.length,
        Nat.mod_lt _ (List.length_pos.mpr hne)⟩) := by
  obtain ⟨d, t, hdt⟩ : ∃ d t, s.destinations = d :: t := by
    cases hds : s.destinations with
    | nil => exact absurd hds hne
    | cons d t => exact ⟨d, t, rfl⟩
  have hpos : 0 < s.destinations.length := List.length_pos.mpr hne
  have hstep := roundRobin_step_fresh st req s hs d t hdt hfresh
  cases k with
  | zero =>
    have hget : s.destinations.get ⟨0 % s.destinations.length,
        Nat.mod_lt _ hpos⟩ = d := by
      apply get_eq_of_some
      rw [Nat.zero_mod, hdt]; rfl
    rw [RoundRobinLoadBalancer.nthChoice, RoundRobinLoadBalancer.iterate,
      hstep]
    exact congrArg Except.ok hget.symm
  | succ j =>
    have hit : RoundRobinLoadBalancer.iterate req (j + 1) st =
        RoundRobinLoadBalancer.iterate req j
          { st with destinationQueues :=
              (setEntry req.requestType (t ++ [d])
                (setEntry req.requestType (d :: t) st.destinationQueues)) } := by
      rw [RoundRobinLoadBalancer.iterate, hstep]
    have hq1 : (setEntry req.requestType (t ++ [d])
        (setEntry req.requestType (d :: t)
          st.destinationQueues)).lookup req.requestType = some (t ++ [d]) :=
      lookup_setEntry_self req.requestType (t ++ [d]) _
    have hrr := roundRobin_nth
      { st with destinationQueues :=
          (setEntry req.requestType (t ++ [d])
            (setEntry req.requestType (d :: t) st.destinationQueues)) }
      req s hs hne (t ++ [d]) hq1 (by simp) j
    have hlen : (t ++ [d]).length = s.destinations.length := by
      rw [hdt]; simp
    have hjlt : j % (t ++ [d]).length < (t ++ [d]).length :=
      Nat.mod_lt _ (by simp)
    have hget : (t ++ [d]).get ⟨j % (t ++ [d]).length, hjlt⟩ =
        s.destinations.get ⟨(j + 1) % s.destinations.length,
          Nat.mod_lt _ hpos⟩ := by
      have hrot1 : s.destinations.rotate 1 = t ++ [d] := by
        rw [hdt, List.rotate_cons_succ, List.rotate_zero]
      have h1 : (t ++ [d]).get? (j % (t ++ [d]).length) =
          some ((t ++ [d]).get ⟨j % (t ++ [d]).length, hjlt⟩) :=
        List.get?_eq_get hjlt
      have h2 : (s.destinations.rotate 1).get? (j % (t ++ [d]).length) =
          s.destinations.get? ((j % (t ++ [d]).length + 1) %
            s.destinations.length) :=
        List.get?_rotate (by rw [← hlen] at hpos ⊢; exact hjlt)
      rw [hrot1] at h2
      rw [h2] at h1
      have hmod : (j % (t ++ [d]).length + 1) % s.destinations.length =
          (j + 1) % s.destinations.length := by
        rw [hlen, Nat.mod_add_mod]
      rw [hmod] at h1
      exact (get_eq_of_some (Nat.mod_lt _ hpos) h1).symm
    rw [RoundRobinLoadBalancer.nthChoice, hit]
    rw [RoundRobinLoadBalancer.nthChoice] at hrr
    rw [hrr, hget]

/-- Witness for `roundRobin_cycles`: four successive calls on the
two-candidate fixture wrap around (the fourth call returns the candidate at
index `3 mod 2 = 1`). -/
theorem roundRobin_cycles_witness :
    RoundRobinLoadBalancer.nthChoice wState wReq 3 =
      Except.ok (wService.destinations.get ⟨3 % wService.destinations.length,
        Nat.mod_lt _ (List.length_pos.mpr (by decide))⟩) :=
  roundRobin_cycles wState wReq wService (by decide) (by decide) rfl 3

/-- **C7**: once the round-robin queue for a request type is materialised,
no sequence of insertions and removals on the bound service's candidate set
is reflected in subsequent round-robin selections for that type: while the
modified set stays non-empty every selection still follows the stale
captured sequence, and when the set is emptied the call fails with
`noCandidates` while the captured sequence itself persists untouched. -/
theorem roundRobin_stale (st : LBState) (req : Request) (s : Service)
    (hs : st.serviceMap.lookup req.requestType = some s)
    (hne : s.destinations ≠ []) (q : List DestId)
    (hq : st.destinationQueues.lookup req.requestType = some q)
    (hqne : q ≠ []) (ops : List SetOp) :
    ((s.applySetOps ops).destinations ≠ [] →
      ∀ k, RoundRobinLoadBalancer.nthChoice
        { st with serviceMap :=
            (setEntry req.requestType (s.applySetOps ops) st.serviceMap) }
        req k =
        RoundRobinLoadBalancer.nthChoice st req k) ∧
    ((s.applySetOps ops).destinations = [] →
      (RoundRobinLoadBalancer.balanceLoad
        { st with serviceMap :=
            (setEntry req.requestType (s.applySetOps ops) st.serviceMap) }
        req).1 = Except.error LBError.noCandidates ∧
      (RoundRobinLoadBalancer.balanceLoad
        { st with serviceMap :=
            (setEntry req.requestType (s.applySetOps ops) st.serviceMap) }
        req).2.destinationQueues.lookup req.requestType = some q) := by
  have hs' : (setEntry req.requestType (s.applySetOps ops)
      st.serviceMap).lookup req.requestType = some (s.applySetOps ops) :=
    lookup_setEntry_self req.requestType (s.applySetOps ops) st.serviceMap
  constructor
  · intro hne' k
    have h1 := roundRobin_nth st req s hs hne q hq hqne k
    have h2 := roundRobin_nth
      { st with serviceMap :=
          (setEntry req.requestType (s.applySetOps ops) st.serviceMap) }
      req (s.applySetOps ops) hs' hne' q hq hqne k
    rw [h1, h2]
  · intro hempty
    have heval : RoundRobinLoadBalancer.balanceLoad
        { st with serviceMap :=
            (setEntry req.requestType (s.applySetOps ops) st.serviceMap) }
        req =
        (Except.error LBError.noCandidates,
         { st with serviceMap :=
             (setEntry req.requestType (s.applySetOps ops) st.serviceMap) }) := by
      simp [RoundRobinLoadBalancer.balanceLoad, LoadBalancer.getDestinations,
        hs', hempty]
    exact ⟨by rw [heval], by rw [heval]; exact hq⟩

/-- Witness for `roundRobin_stale`: with queue `[0, 1]` already materialised,
removing destination 0 and inserting destination 2 leaves the next selection
unchanged, while removing both destinations makes the call fail with
`noCandidates`. -/
theorem roundRobin_stale_witness :
    RoundRobinLoadBalancer.nthChoice
      { wRRState with serviceMap :=
          (setEntry wReq.requestType
            (wService.applySetOps [SetOp.remove 0, SetOp.add 2])
            wRRState.serviceMap) }
      wReq 0 =
      RoundRobinLoadBalancer.nthChoice wRRState wReq 0 ∧
    (RoundRobinLoadBalancer.balanceLoad
      { wRRState with serviceMap :=
          (setEntry wReq.requestType
            (wService.applySetOps [SetOp.remove 0, SetOp.remove 1])
            wRRState.serviceMap) }
      wReq).1 = Except.error LBError.noCandidates :=
  ⟨(roundRobin_stale wRRState wReq wService (by decide) (by decide) [0, 1]
      (by decide) (by decide) [SetOp.remove 0, SetOp.add 2]).1 (by decide) 0,
   ((roundRobin_stale wRRState wReq wService (by decide) (by decide) [0, 1]
      (by decide) (by decide) [SetOp.remove 0, SetOp.remove 1]).2
      (by decide)).1⟩
